import Mathlib

/-!
Verification development for the MVPLocal recommendation core:
strategy scorers (src/backend/app/ai_models/rule_based_model.py,
src/backend/app/trading_strategies.py), the blend / risk filter
(src/backend/app/strategy_integration.py,
src/backend/app/ai_models/hybrid_model.py), the recommendation cache
(src/backend/app/ai_recommendations.py,
src/backend/app/enhanced_ai_recommendations.py), and the performance
tracker (src/backend/app/performance_tracking.py).

Numeric conventions: Python ints are modelled as ℤ (counts occasionally ℕ),
Python floats as ℚ.  For the integer cent prices (0..100) that flow through
these functions, every float comparison and arithmetic step performed by the
code is exact at the granularity the comparisons discriminate, so the ℚ model
agrees with the float behaviour on all inputs used in the theorems below;
`round` is modelled as nearest-with-ties-away (Mathlib's `round`) and no
theorem below evaluates it at a tie point, where Python's bankers rounding
would differ.
-/

/-- Python `xs[:n]` slice: `take n` for `n ≥ 0`, `take (len + n)` for `n < 0`. -/
def pyTake (n : ℤ) (xs : List α) : List α :=
  if 0 ≤ n then xs.take n.toNat else xs.take (xs.length - n.natAbs)

/-- One step of a stable insertion: place `x` before the first element `y`
with `le x y`; models the placement discipline of Python's stable sort
(`le a b` reads "a may come before b", i.e. a's key is not strictly worse). -/
def pyInsert (le : α → α → Bool) (x : α) : List α → List α
  | [] => [x]
  | y :: ys => if le x y then x :: y :: ys else y :: pyInsert le x ys

/-- Python `sorted(xs, key=...)` (stable).  `le a b` must say "the key of `a`
is at least as good as the key of `b` in the requested order" (for
`reverse=True` that is key-of-a ≥ key-of-b); stability then matches
Python's: elements with equal keys keep their input order. -/
def pySorted (le : α → α → Bool) (xs : List α) : List α :=
  xs.foldr (pyInsert le) []

/-- Python `round(q, d)` on exact rationals (ties rounded as in Mathlib's
`round`; no theorem in this file evaluates a tie). -/
def pyRound (q : ℚ) (d : ℕ) : ℚ :=
  ((round (q * (10 : ℚ) ^ d) : ℤ) : ℚ) / (10 : ℚ) ^ d

/-- Python `int(q)` truncation toward zero. -/
def pyInt (q : ℚ) : ℤ :=
  if 0 ≤ q then ⌊q⌋ else -⌊-q⌋

/-- Python `s.lower()` on the ASCII strategy / risk-level strings this code
compares against (uppercase ASCII letters shifted down by 32, everything
else unchanged; the full Unicode lowering never matters for these inputs). -/
def pyLowerChar (c : Char) : Char :=
  if 65 ≤ c.toNat ∧ c.toNat ≤ 90 then Char.ofNat (c.toNat + 32) else c

/-- Python `s.lower()` (see `pyLowerChar`). -/
def pyLower (s : String) : String := String.mk (s.toList.map pyLowerChar)

/-- Market snapshot as consumed by the scorers: the enriched dict built in
`_get_market_data` / `_get_filtered_market_data` (id, title, bid/ask prices
in integer cents, 24h volume). -/
structure Market where
  id : String
  title : String
  yesBid : ℤ
  yesAsk : ℤ
  noBid : ℤ
  noAsk : ℤ
  volume24h : ℤ
deriving DecidableEq

/-- Candidate recommendation dict produced by the scorers.  The randomized
`rationale` flavour text is omitted (spec §9: structural fields only);
`strategy` is absent from rule-based dicts until the hybrid blend tags it,
modelled as the empty string. -/
structure Rec where
  marketId : String
  market : String
  action : String
  probability : ℚ
  contracts : ℤ
  cost : ℚ
  targetExit : ℚ
  stopLoss : ℚ
  confidence : String
  strategy : String
deriving DecidableEq

/-- The `confidence_order` lookup `{High: 3, Medium: 2, Low: 1}.get(c, 0)`
used by both blend paths. -/
def confRank (c : String) : ℤ :=
  if c = "High" then 3 else if c = "Medium" then 2 else if c = "Low" then 1 else 0

/-- Shared shape of the momentum / mean-reversion generation loops of
`rule_based_model.py`: walk the (already sorted and sliced) market list,
skip markets the per-market rule rejects, append accepted recommendations,
and break as soon as `len(recommendations) >= max_recommendations`
(checked only after an append, as in the source). -/
def recLoop (maxRecs : ℤ) (step : Market → Option Rec) : List Market → List Rec → List Rec
  | [], acc => acc
  | m :: ms, acc =>
    match step m with
    | none => recLoop maxRecs step ms acc
    | some r =>
      let acc' := acc ++ [r]
      if maxRecs ≤ (acc'.length : ℤ) then acc' else recLoop maxRecs step ms acc'

/-- Per-market rule of `_generate_momentum_recommendations`
(rule_based_model.py lines 77-128): YES above 0.65 (High above 0.80),
NO below 0.35 (High below 0.20), dead zone skipped; position size by risk
level; exit/stop at ±0.15 / ∓0.10 clamped to [0.01, 0.99]. -/
def momentumStep (risk : String) (m : Market) : Option Rec :=
  let yesPrice : ℚ := (m.yesAsk : ℚ) / 100
  let dec : Option (String × ℚ × String) :=
    if yesPrice > 65 / 100 then
      some ("YES", yesPrice * 100, if yesPrice > 8 / 10 then "High" else "Medium")
    else if yesPrice < 35 / 100 then
      some ("NO", (1 - yesPrice) * 100, if yesPrice < 2 / 10 then "High" else "Medium")
    else none
  match dec with
  | none => none
  | some (action, probability, confidence) =>
    let contracts : ℤ := if risk = "low" then 1 else if risk = "medium" then 3 else 5
    let cost : ℚ := if action = "YES" then contracts * yesPrice else contracts * (1 - yesPrice)
    let targetExit : ℚ :=
      if action = "YES" then min (yesPrice + 15 / 100) (99 / 100)
      else max (yesPrice - 15 / 100) (1 / 100)
    let stopLoss : ℚ :=
      if action = "YES" then max (yesPrice - 10 / 100) (1 / 100)
      else min (yesPrice + 10 / 100) (99 / 100)
    some { marketId := m.id, market := m.title, action := action,
           probability := pyRound probability 1, contracts := contracts,
           cost := pyRound cost 2, targetExit := pyRound (targetExit * 100) 1,
           stopLoss := pyRound (stopLoss * 100) 1, confidence := confidence,
           strategy := "" }

/-- `_generate_momentum_recommendations`: sort by `volume_24h` descending
(stable), slice to `max_recommendations * 2`, then run the generation loop. -/
def momentumRecommendations (markets : List Market) (maxRecs : ℤ) (risk : String) : List Rec :=
  let sortedMarkets := pySorted (fun a b => decide (b.volume24h ≤ a.volume24h)) markets
  recLoop maxRecs (momentumStep risk) (pyTake (maxRecs * 2) sortedMarkets) []

/-- Per-market rule of `_generate_mean_reversion_recommendations`
(rule_based_model.py lines 162-213): NO above 0.80 (Medium above 0.90,
else Low), YES below 0.20 (Medium below 0.10, else Low); tighter stop
(±0.05) and wider target (±0.20) than momentum. -/
def meanReversionStep (risk : String) (m : Market) : Option Rec :=
  let yesPrice : ℚ := (m.yesAsk : ℚ) / 100
  let dec : Option (String × ℚ × String) :=
    if yesPrice > 8 / 10 then
      some ("NO", (1 - yesPrice) * 100, if yesPrice > 9 / 10 then "Medium" else "Low")
    else if yesPrice < 2 / 10 then
      some ("YES", yesPrice * 100, if yesPrice < 1 / 10 then "Medium" else "Low")
    else none
  match dec with
  | none => none
  | some (action, probability, confidence) =>
    let contracts : ℤ := if risk = "low" then 1 else if risk = "medium" then 2 else 4
    let cost : ℚ := if action = "YES" then contracts * yesPrice else contracts * (1 - yesPrice)
    let targetExit : ℚ :=
      if action = "YES" then min (yesPrice + 20 / 100) (99 / 100)
      else max (yesPrice - 20 / 100) (1 / 100)
    let stopLoss : ℚ :=
      if action = "YES" then max (yesPrice - 5 / 100) (1 / 100)
      else min (yesPrice + 5 / 100) (99 / 100)
    some { marketId := m.id, market := m.title, action := action,
           probability := pyRound probability 1, contracts := contracts,
           cost := pyRound cost 2, targetExit := pyRound (targetExit * 100) 1,
           stopLoss := pyRound (stopLoss * 100) 1, confidence := confidence,
           strategy := "" }

/-- `_generate_mean_reversion_recommendations`: sort by distance of
`yes_ask` from 50 descending (stable), slice to `max_recommendations * 2`,
then run the generation loop. -/
def meanReversionRecommendations (markets : List Market) (maxRecs : ℤ) (risk : String) : List Rec :=
  let sortedMarkets := pySorted (fun a b => decide (|b.yesAsk - 50| ≤ |a.yesAsk - 50|)) markets
  recLoop maxRecs (meanReversionStep risk) (pyTake (maxRecs * 2) sortedMarkets) []

/-- `RuleBasedRecommendationModel.generate_recommendations`: dispatch on the
strategy name, unknown strategies yield the empty list. -/
def ruleBasedGenerate (markets : List Market) (strategy : String) (maxRecs : ℤ)
    (risk : String) : List Rec :=
  if strategy = "momentum" then momentumRecommendations markets maxRecs risk
  else if strategy = "mean-reversion" then meanReversionRecommendations markets maxRecs risk
  else []

/-- `StrategyManager._filter_by_risk_level` (strategy_integration.py lines
102-128): high keeps everything, medium drops Low confidence, low keeps only
High confidence, anything else defaults to the medium behaviour. -/
def filterByRiskLevel (recs : List Rec) (risk : String) : List Rec :=
  if risk = "high" then recs
  else if risk = "medium" then recs.filter (fun r => r.confidence ≠ "Low")
  else if risk = "low" then recs.filter (fun r => r.confidence = "High")
  else recs.filter (fun r => r.confidence ≠ "Low")

/-- Key comparison of `StrategyManager._sort_by_confidence`: Python sorts by
the tuple `(confidence_order.get(conf, 0), cost * -1)` with `reverse=True`,
so `a` may precede `b` iff `(rank a, -cost a) ≥ (rank b, -cost b)`
lexicographically, i.e. a higher rank, or an equal rank and `cost a ≤ cost b`
(the negation cancels against the reversal: equal-confidence ties come out
cost-ascending). -/
def confCostKeyGE (a b : Rec) : Bool :=
  decide (confRank b.confidence < confRank a.confidence ∨
    (confRank a.confidence = confRank b.confidence ∧ a.cost ≤ b.cost))

/-- `StrategyManager._sort_by_confidence` (strategy_integration.py lines
130-149). -/
def sortByConfidence (recs : List Rec) : List Rec :=
  pySorted confCostKeyGE recs

/-- The tail of `StrategyManager.get_recommendations` (strategy_integration.py
lines 92-100): risk filter, confidence sort, truncation to
`max_recommendations`.  There is no deduplication step on this path. -/
def managerPostProcess (recs : List Rec) (maxRecs : ℤ) (risk : String) : List Rec :=
  pyTake maxRecs (sortByConfidence (filterByRiskLevel recs risk))

/-- `HourlyMarketFilter.TARGET_SERIES` (market_filter.py). -/
def targetSeries : List String :=
  ["KXNASDAQ100U", "KXINXU", "KXETHD", "KXETH", "KXBTCD", "KXBTC"]

/-- Character-list prefix test (helper for the substring test below). -/
def listHasPref : List Char → List Char → Bool
  | [], _ => true
  | _ :: _, [] => false
  | a :: as, b :: bs => a == b && listHasPref as bs

/-- Character-list substring test (helper for `strContains`). -/
def listHasSub (needle : List Char) : List Char → Bool
  | [] => listHasPref needle []
  | c :: cs => listHasPref needle (c :: cs) || listHasSub needle cs

/-- Python `needle in hay` on strings. -/
def strContains (hay needle : String) : Bool :=
  listHasSub needle.toList hay.toList

/-- Numeric value of a digit character. -/
def digitVal (c : Char) : ℕ := c.toNat - 48

/-- Decimal digit test. -/
def isDigitCh (c : Char) : Bool := decide (48 ≤ c.toNat) && decide (c.toNat ≤ 57)

/-- Value of a digit string. -/
def digitsVal (cs : List Char) : ℕ := cs.foldl (fun n c => 10 * n + digitVal c) 0

/-- Python `float(s)` restricted to the unsigned decimal literals that occur
in these market ids (`ddd` or `ddd.ddd`); any other shape yields 0, standing
for the caller's except-branch which returns 0.0 (signs, exponents and
inf/nan never occur in a strike suffix). -/
def parseDecimal (s : String) : ℚ :=
  match s.splitOn "." with
  | [a] =>
    if a.toList ≠ [] ∧ a.toList.all isDigitCh then (digitsVal a.toList : ℚ) else 0
  | [a, b] =>
    if a.toList.all isDigitCh ∧ b.toList.all isDigitCh ∧ (a.toList ≠ [] ∨ b.toList ≠ []) then
      (digitsVal a.toList : ℚ) + (digitsVal b.toList : ℚ) / (10 : ℚ) ^ b.length
    else 0
  | _ => 0

/-- `ArbitrageStrategy._extract_strike_price`: the part after the last hyphen,
stripped of a leading T or B, parsed as a float; anything else (including
ids with fewer than 3 hyphen-separated parts) yields 0.0. -/
def extractStrike (marketId : String) : ℚ :=
  let parts := marketId.splitOn "-"
  if parts.length < 3 then 0
  else
    let strikePart := parts.getLast!
    if strikePart.startsWith ("T") ∨ strikePart.startsWith ("B") then
      parseDecimal (strikePart.drop 1)
    else 0

/-- Append a market to its series bucket, preserving Python dict insertion
order (new series appended at the end, existing series keep position). -/
def addToGroup (s : String) (m : Market) : List (String × List Market) → List (String × List Market)
  | [] => [(s, [m])]
  | (k, ms) :: rest =>
    if k = s then (k, ms ++ [m]) :: rest else (k, ms) :: addToGroup s m rest

/-- The grouping loop of `ArbitrageStrategy.analyze` (trading_strategies.py
lines 61-72): each market joins the bucket of the first TARGET_SERIES entry
that occurs as a substring of its id; unmatched markets are dropped. -/
def groupBySeries (markets : List Market) : List (String × List Market) :=
  markets.foldl
    (fun acc m =>
      match targetSeries.find? (fun s => strContains m.id s) with
      | none => acc
      | some s => addToGroup s m acc)
    []

/-- Adjacent pairs `(sorted[i], sorted[i+1])` of a list. -/
def adjacentPairs : List α → List (α × α)
  | [] => []
  | [_] => []
  | a :: b :: rest => (a, b) :: adjacentPairs (b :: rest)

/-- `ArbitrageStrategy._analyze_price_range_arbitrage` (trading_strategies.py
lines 93-151): sort a series by strike ascending, and for every adjacent
pair with positive prices and `yes_ask(lower) + no_ask(higher) < 95` emit a
YES leg on the lower strike and a NO leg on the higher strike.  A market can
be the higher leg of one pair and the lower leg of the next, so one market
id may appear in two emitted candidates. -/
def priceRangeArb (ms : List Market) : List Rec :=
  let sortedMs := pySorted (fun a b => decide (extractStrike a.id ≤ extractStrike b.id)) ms
  (adjacentPairs sortedMs).foldl
    (fun recs p =>
      let m1 := p.1
      let m2 := p.2
      let p1 := m1.yesAsk
      let p2 := m2.noAsk
      if 0 < p1 ∧ 0 < p2 ∧ p1 + p2 < 95 then
        let arbProfit := 100 - (p1 + p2)
        recs ++
          [{ marketId := m1.id, market := m1.title, action := "YES", contracts := 1,
             probability := (p1 : ℚ), cost := (p1 : ℚ) / 100,
             confidence := if 10 < arbProfit then "High" else "Medium",
             strategy := "arbitrage", targetExit := ((p1 + 5 : ℤ) : ℚ),
             stopLoss := ((p1 - 5 : ℤ) : ℚ) },
           { marketId := m2.id, market := m2.title, action := "NO", contracts := 1,
             probability := ((100 - p2 : ℤ) : ℚ), cost := (p2 : ℚ) / 100,
             confidence := if 10 < arbProfit then "High" else "Medium",
             strategy := "arbitrage", targetExit := ((p2 - 5 : ℤ) : ℚ),
             stopLoss := ((p2 + 5 : ℤ) : ℚ) }]
      else recs)
    []

/-- `ArbitrageStrategy._analyze_index_arbitrage` (trading_strategies.py lines
153-210): for adjacent strikes with positive YES prices, a lower strike
priced more than 5 points below a higher strike is a monotonicity violation;
emit a YES on the lower and a NO on the higher strike. -/
def indexArb (ms : List Market) : List Rec :=
  let sortedMs := pySorted (fun a b => decide (extractStrike a.id ≤ extractStrike b.id)) ms
  (adjacentPairs sortedMs).foldl
    (fun recs p =>
      let m1 := p.1
      let m2 := p.2
      let p1 := m1.yesAsk
      let p2 := m2.yesAsk
      if 0 < p1 ∧ 0 < p2 ∧ p1 < p2 - 5 then
        recs ++
          [{ marketId := m1.id, market := m1.title, action := "YES", contracts := 1,
             probability := (p1 : ℚ), cost := (p1 : ℚ) / 100,
             confidence := "Medium", strategy := "arbitrage",
             targetExit := ((p1 + 10 : ℤ) : ℚ), stopLoss := ((p1 - 5 : ℤ) : ℚ) },
           { marketId := m2.id, market := m2.title, action := "NO", contracts := 1,
             probability := ((100 - p2 : ℤ) : ℚ), cost := ((100 - p2 : ℤ) : ℚ) / 100,
             confidence := "Medium", strategy := "arbitrage",
             targetExit := ((p2 - 10 : ℤ) : ℚ), stopLoss := ((p2 + 5 : ℤ) : ℚ) }]
      else recs)
    []

/-- `ArbitrageStrategy.analyze` (trading_strategies.py lines 45-91): group by
series, skip series with fewer than two markets, run the range analysis on
KXETH/KXBTC and the index analysis on KXNASDAQ100U/KXINXU. -/
def arbitrageAnalyze (markets : List Market) : List Rec :=
  if markets = [] then []
  else
    (groupBySeries markets).foldl
      (fun recs g =>
        let s := g.1
        let ms := g.2
        if ms.length < 2 then recs
        else if s = "KXETH" ∨ s = "KXBTC" then recs ++ priceRangeArb ms
        else if s = "KXNASDAQ100U" ∨ s = "KXINXU" then recs ++ indexArb ms
        else recs)
      []

/-- `StrategyManager.get_recommendations` for `strategy="arbitrage"`
(strategy_integration.py lines 69-100): empty market list short-circuits,
otherwise analyze then risk-filter, sort and truncate.  (The volatility and
sentiment branches depend on external side channels and are not needed by
any theorem below; `managerPostProcess` covers their shared tail.) -/
def managerArbitrage (markets : List Market) (maxRecs : ℤ) (risk : String) : List Rec :=
  if markets = [] then []
  else managerPostProcess (arbitrageAnalyze markets) maxRecs risk

/-- First pass of `_generate_hybrid_strategy_recommendations`
(hybrid_model.py lines 171-182): iterate the combined list, keep the first
occurrence of each market id (recording it in `seen_market_ids`), and break
as soon as `len(unique_recommendations) >= max_recommendations` (checked
only after an append).  Returns the kept list together with the seen set. -/
def dedupPass (maxRecs : ℤ) : List Rec → List Rec → List String → List Rec × List String
  | [], acc, seen => (acc, seen)
  | r :: rest, acc, seen =>
    if r.marketId ∈ seen then dedupPass maxRecs rest acc seen
    else
      let acc' := acc ++ [r]
      let seen' := seen ++ [r.marketId]
      if maxRecs ≤ (acc'.length : ℤ) then (acc', seen')
      else dedupPass maxRecs rest acc' seen'

/-- Fill loop of `_generate_hybrid_strategy_recommendations` (hybrid_model.py
lines 196-202): append leftover candidates while below the limit (checked at
the top of each iteration); the loop does not re-check `seen_market_ids`
membership, it only records it. -/
def fillLoop (maxRecs : ℤ) : List Rec → List Rec → List String → List Rec
  | [], acc, _ => acc
  | r :: rest, acc, seen =>
    if maxRecs ≤ (acc.length : ℤ) then acc
    else fillLoop maxRecs rest (acc ++ [r]) (seen ++ [r.marketId])

/-- Dedup-then-fill tail of `_generate_hybrid_strategy_recommendations`
(hybrid_model.py lines 168-205): first-occurrence dedup with early break,
then, if still short of the limit, fill from the candidates whose market was
not seen, sorted by confidence rank descending (stable, no secondary key). -/
def hybridDedupFill (combined : List Rec) (maxRecs : ℤ) : List Rec :=
  let pass := dedupPass maxRecs combined [] []
  let unique := pass.1
  let seen := pass.2
  if (unique.length : ℤ) < maxRecs then
    let remaining := combined.filter (fun r => r.marketId ∉ seen)
    let sortedRemaining :=
      pySorted (fun a b => decide (confRank b.confidence ≤ confRank a.confidence)) remaining
    fillLoop maxRecs sortedRemaining unique seen
  else unique

/-- The `rec["strategy"] = ...` tagging loops of hybrid_model.py lines
161-166. -/
def setStrategy (s : String) (r : Rec) : Rec := { r with strategy := s }

/-- `_generate_hybrid_strategy_recommendations` (hybrid_model.py lines
90-205).  The two OpenAI sub-calls are an external model path; their outputs
(empty when the model is disabled or its call raised) enter as parameters.
The `max(1, int(max_recommendations * f))` split is modelled over ℚ; Python
evaluates `f` as a binary double, which can truncate one lower than the
rational product at a handful of integer arguments — no theorem below
depends on the split values, only on the combined list that results. -/
def hybridStrategyRecommendations (openaiEnabled : Bool)
    (openaiMomentum openaiMeanRev : List Rec) (markets : List Market)
    (maxRecs : ℤ) (risk : String) : List Rec :=
  let momentumCount : ℤ :=
    if risk = "low" then max 1 (pyInt ((maxRecs : ℚ) * (4 / 10)))
    else if risk = "high" then max 1 (pyInt ((maxRecs : ℚ) * (7 / 10)))
    else max 1 (pyInt ((maxRecs : ℚ) * (5 / 10)))
  let meanRevCount : ℤ := maxRecs - momentumCount
  let m0 := if openaiEnabled then openaiMomentum else []
  let mr0 := if openaiEnabled then openaiMeanRev else []
  let m1 :=
    if m0 = [] ∨ (m0.length : ℤ) < momentumCount then
      ruleBasedGenerate markets "momentum" momentumCount risk
    else m0
  let mr1 :=
    if mr0 = [] ∨ (mr0.length : ℤ) < meanRevCount then
      ruleBasedGenerate markets "mean-reversion" meanRevCount risk
    else mr0
  let combined := m1.map (setStrategy "momentum") ++ mr1.map (setStrategy "mean-reversion")
  hybridDedupFill combined maxRecs

/-- `HybridRecommendationModel.generate_recommendations` (hybrid_model.py
lines 37-88): the hybrid strategy goes through the dedicated blend; for
momentum / mean-reversion the OpenAI model is tried first when enabled
(`openaiResult` carries its return or its exception) and any failure or
empty result falls back to the rule-based model. -/
def hybridGenerate (openaiEnabled : Bool) (openaiResult : Except String (List Rec))
    (openaiMomentum openaiMeanRev : List Rec) (markets : List Market)
    (strategy : String) (maxRecs : ℤ) (risk : String) : List Rec :=
  if strategy = "hybrid" then
    hybridStrategyRecommendations openaiEnabled openaiMomentum openaiMeanRev markets maxRecs risk
  else if openaiEnabled then
    match openaiResult with
    | Except.ok recs => if recs ≠ [] then recs else ruleBasedGenerate markets strategy maxRecs risk
    | Except.error _ => ruleBasedGenerate markets strategy maxRecs risk
  else ruleBasedGenerate markets strategy maxRecs risk

/-- Performance Record (performance_tracking.py lines 71-87). -/
structure PerfRecord where
  id : String
  marketId : String
  strategy : String
  action : String
  entryPrice : ℚ
  targetExit : ℚ
  stopLoss : ℚ
  confidence : String
  timestamp : ℤ
  status : String
  exitPrice : Option ℚ
  exitTimestamp : Option ℤ
  result : Option String
  profitLoss : Option ℚ
  notes : String
deriving DecidableEq

/-- Strategy Performance Aggregate (performance_tracking.py lines 362-373). -/
structure StrategyPerf where
  strategy : String
  winCount : ℕ
  lossCount : ℕ
  openCount : ℕ
  winRate : ℚ
  avgProfit : ℚ
  avgLoss : ℚ
  totalProfitLoss : ℚ
  accuracy : ℚ
  lastUpdated : ℤ
deriving DecidableEq

/-- The tracker's persisted state `{"recommendations": {...},
"performance": {...}}`; Python dicts are insertion-ordered association
lists. -/
structure PerfData where
  recommendations : List (String × List PerfRecord)
  performance : List (String × StrategyPerf)
deriving DecidableEq

/-- Python `d.get(k)` on an insertion-ordered dict. -/
def assocFind (k : String) (l : List (String × β)) : Option β :=
  (l.find? (fun p => p.1 = k)).map (fun p => p.2)

/-- Python `d[k] = v`: overwrite in place, or append a new key at the end. -/
def assocSet (k : String) (v : β) : List (String × β) → List (String × β)
  | [] => [(k, v)]
  | (k', v') :: rest => if k' = k then (k, v) :: rest else (k', v') :: assocSet k v rest

/-- The recommendation dict handed to `record_recommendation`; all fields are
read with `.get` defaults in the source, so each is optional here. -/
structure RecInput where
  id : Option String
  marketId : Option String
  strategy : Option String
  action : Option String
  probability : Option ℚ
  targetExit : Option ℚ
  stopLoss : Option ℚ
  confidence : Option String
deriving DecidableEq

/-- `record_recommendation` (performance_tracking.py lines 49-98).  A falsy
(absent) recommendation is a no-op.  `hashId` stands for the generated
default id `f"rec_{int(time.time())}_{hash(str(recommendation))}"` (string
hashing is process-randomized, so it enters as a parameter); `now` is
`int(time.time())`. -/
def recordRecommendation (data : PerfData) (rec : Option RecInput) (now : ℤ)
    (hashId : String) : PerfData :=
  match rec with
  | none => data
  | some r =>
    let strat := r.strategy.getD "unknown"
    let record : PerfRecord :=
      { id := r.id.getD hashId, marketId := r.marketId.getD "", strategy := strat,
        action := r.action.getD "", entryPrice := r.probability.getD 0,
        targetExit := r.targetExit.getD 0, stopLoss := r.stopLoss.getD 0,
        confidence := r.confidence.getD "Medium", timestamp := now,
        status := "open", exitPrice := none, exitTimestamp := none,
        result := none, profitLoss := none, notes := "" }
    let existing := (assocFind strat data.recommendations).getD []
    { data with recommendations := assocSet strat (existing ++ [record]) data.recommendations }

/-- Field updates applied to a found record by `update_recommendation_status`
(performance_tracking.py lines 122-147): the status is overwritten
unconditionally; when an exit price is supplied the exit fields and the
win/loss result and profit/loss formulas are applied (reading the entry
price and action from the pre-update record); a truthy notes string
overwrites the notes. -/
def applyStatusUpdate (rec : PerfRecord) (status : String) (exitPrice : Option ℚ)
    (notes : Option String) (now : ℤ) : PerfRecord :=
  let r1 := { rec with status := status }
  let r2 :=
    match exitPrice with
    | none => r1
    | some x =>
      let result :=
        if rec.action = "YES" then (if x > rec.entryPrice then "win" else "loss")
        else (if x < rec.entryPrice then "win" else "loss")
      let pl := if rec.action = "YES" then x - rec.entryPrice else rec.entryPrice - x
      { r1 with exitPrice := some x, exitTimestamp := some now, result := some result,
                profitLoss := some pl }
  match notes with
  | none => r2
  | some s => if s ≠ "" then { r2 with notes := s } else r2

/-- Replace the first record with the given id in a strategy's list; `none`
when absent. -/
def updateInList (recId status : String) (exitPrice : Option ℚ) (notes : Option String)
    (now : ℤ) : List PerfRecord → Option (List PerfRecord)
  | [] => none
  | r :: rest =>
    if r.id = recId then some (applyStatusUpdate r status exitPrice notes now :: rest)
    else (updateInList recId status exitPrice notes now rest).map (fun l => r :: l)

/-- The search loop of `update_recommendation_status`: strategies in dict
order, records in list order; returns the owning strategy and the updated
dict when found. -/
def updateAcross (recId status : String) (exitPrice : Option ℚ) (notes : Option String)
    (now : ℤ) : List (String × List PerfRecord) →
    Option (String × List (String × List PerfRecord))
  | [] => none
  | (s, recs) :: rest =>
    match updateInList recId status exitPrice notes now recs with
    | some recs' => some (s, (s, recs') :: rest)
    | none =>
      (updateAcross recId status exitPrice notes now rest).map
        (fun p => (p.1, (s, recs) :: p.2))

/-- `_update_strategy_performance` (performance_tracking.py lines 329-378):
recompute the strategy's aggregate over all its records; a strategy with no
record list is a no-op. -/
def updateStrategyPerformance (data : PerfData) (strategy : String) (now : ℤ) : PerfData :=
  match assocFind strategy data.recommendations with
  | none => data
  | some recs =>
    let winCount := (recs.filter (fun r => r.result = some "win")).length
    let lossCount := (recs.filter (fun r => r.result = some "loss")).length
    let openCount := (recs.filter (fun r => r.status = "open")).length
    let winRate : ℚ :=
      if 0 < winCount + lossCount then
        ((winCount : ℚ) / ((winCount : ℚ) + (lossCount : ℚ))) * 100
      else 0
    let profits := (recs.filter (fun r => r.result = some "win" ∧ r.profitLoss ≠ none)).map
      (fun r => r.profitLoss.getD 0)
    let losses := (recs.filter (fun r => r.result = some "loss" ∧ r.profitLoss ≠ none)).map
      (fun r => r.profitLoss.getD 0)
    let avgProfit : ℚ := if profits ≠ [] then profits.sum / (profits.length : ℚ) else 0
    let avgLoss : ℚ := if losses ≠ [] then losses.sum / (losses.length : ℚ) else 0
    let closedCount := (recs.filter (fun r => r.status = "closed")).length
    let accuracy : ℚ :=
      if 0 < closedCount then ((winCount : ℚ) / (closedCount : ℚ)) * 100 else 0
    let perf : StrategyPerf :=
      { strategy := strategy, winCount := winCount, lossCount := lossCount,
        openCount := openCount, winRate := winRate, avgProfit := avgProfit,
        avgLoss := avgLoss, totalProfitLoss := profits.sum + losses.sum,
        accuracy := accuracy, lastUpdated := now }
    { data with performance := assocSet strategy perf data.performance }

/-- `update_recommendation_status` (performance_tracking.py lines 100-159):
find the record, apply the field updates, recompute that strategy's
aggregate; an unknown id returns `False` and leaves everything unchanged. -/
def updateRecommendationStatus (data : PerfData) (recId status : String)
    (exitPrice : Option ℚ) (notes : Option String) (now : ℤ) : Bool × PerfData :=
  match updateAcross recId status exitPrice notes now data.recommendations with
  | none => (false, data)
  | some p =>
    let data' : PerfData := { data with recommendations := p.2 }
    (true, updateStrategyPerformance data' p.1 now)

/-- `get_strategy_performance` (performance_tracking.py lines 161-185): a
pure read; an unknown strategy yields the zeroed aggregate (with
`last_updated = int(time.time())`). -/
def getStrategyPerformance (data : PerfData) (strategy : String) (now : ℤ) : StrategyPerf :=
  match assocFind strategy data.performance with
  | none =>
    { strategy := strategy, winCount := 0, lossCount := 0, openCount := 0,
      winRate := 0, avgProfit := 0, avgLoss := 0, totalProfitLoss := 0,
      accuracy := 0, lastUpdated := now }
  | some p => p

/-- The ledger traversal order of `update_recommendation_status`: strategies
in dict order, records in list order, first record with the given id. -/
def findInStrats (recId : String) : List (String × List PerfRecord) → Option PerfRecord
  | [] => none
  | (_, recs) :: rest =>
    match recs.find? (fun r => r.id = recId) with
    | some r => some r
    | none => findInStrats recId rest

/-- First record with the given id, in the traversal order of
`update_recommendation_status`. -/
def findRecordById (data : PerfData) (recId : String) : Option PerfRecord :=
  findInStrats recId data.recommendations

/-- All record ids present in the ledger. -/
def allRecordIds (data : PerfData) : List String :=
  (data.recommendations.map (fun p => p.2.map (fun r => r.id))).flatten

/-- On-disk cache entry written by
`AIRecommendationSystem._cache_recommendations`
(ai_recommendations.py lines 192-222). -/
structure CacheEntry where
  timestamp : ℚ
  strategy : String
  riskLevel : String
  recommendations : List Rec
deriving DecidableEq

/-- The per-`(strategy, risk_level)` cache files of the basic system (one
entry per key, unconditional overwrite). -/
structure CacheState where
  entries : List ((String × String) × CacheEntry)
deriving DecidableEq

/-- Python `d.get(k)` keyed by a string pair. -/
def assocFind2 (k : String × String) (l : List ((String × String) × β)) : Option β :=
  (l.find? (fun p => p.1 = k)).map (fun p => p.2)

/-- Overwrite-or-append, keyed by a string pair. -/
def assocSet2 (k : String × String) (v : β) :
    List ((String × String) × β) → List ((String × String) × β)
  | [] => [(k, v)]
  | (k', v') :: rest => if k' = k then (k, v) :: rest else (k', v') :: assocSet2 k v rest

/-- `AIRecommendationSystem._get_cached_recommendations`
(ai_recommendations.py lines 157-190): `None` when no cache file exists or
`now - timestamp > ttl`; otherwise the stored list.  (An unreadable file is
the out-of-scope PersistenceFailure branch, also `None`.) -/
def getCachedRecommendations (st : CacheState) (strategy risk : String) (now ttl : ℚ) :
    Option (List Rec) :=
  match assocFind2 (strategy, risk) st.entries with
  | none => none
  | some e => if now - e.timestamp > ttl then none else some e.recommendations

/-- `AIRecommendationSystem._cache_recommendations`: unconditional
write-through of the freshly generated list with the current timestamp. -/
def writeCache (st : CacheState) (strategy risk : String) (now : ℚ)
    (recs : List Rec) : CacheState :=
  { entries := assocSet2 (strategy, risk)
      { timestamp := now, strategy := strategy, riskLevel := risk, recommendations := recs }
      st.entries }

/-- `AIRecommendationSystem.get_recommendations` (ai_recommendations.py lines
51-109): validate strategy and risk level (raising `ValueError` otherwise,
modelled as `Except.error`); on a truthy cache hit return the cached list
sliced to `max_recommendations` — note that a cached EMPTY list is falsy in
Python and therefore falls through to regeneration; otherwise generate
(`genResult` bundles `_get_market_data` plus the hybrid model call, whose
exceptions the method re-raises), write through the cache, and return the
fresh list un-sliced. -/
def aiGetRecommendations (st : CacheState) (strategy : String) (maxRecs : ℤ)
    (risk : String) (forceRefresh cacheEnabled : Bool) (now ttl : ℚ)
    (genResult : Except String (List Rec)) : Except String (List Rec × CacheState) :=
  if pyLower strategy ∉ ["momentum", "mean-reversion", "hybrid"] then
    Except.error ("Invalid strategy: " ++ strategy)
  else if pyLower risk ∉ ["low", "medium", "high"] then
    Except.error ("Invalid risk level: " ++ risk)
  else
    let cached :=
      if cacheEnabled ∧ ¬forceRefresh then getCachedRecommendations st strategy risk now ttl
      else none
    match cached with
    | some (r :: rs) => Except.ok (pyTake maxRecs (r :: rs), st)
    | _ =>
      match genResult with
      | Except.error e => Except.error e
      | Except.ok recs =>
        let st' := if cacheEnabled then writeCache st strategy risk now recs else st
        Except.ok (recs, st')

/-- Error taxonomy of the enhanced blend (spec §7): the `ValueError` raised
for an unknown strategy or risk level, versus any other exception the method
re-raises (market-data fetch failures). -/
inductive BlendError where
  | invalidArgument : String → BlendError
  | upstream : String → BlendError
deriving DecidableEq

/-- Result dict of `EnhancedAIRecommendationSystem.get_recommendations`
(enhanced_ai_recommendations.py lines 184-193). -/
structure BlendResult where
  recommendations : List Rec
  timestamp : ℚ
  source : String
  strategy : String
  riskLevel : String
  cached : Bool
  message : Option String
deriving DecidableEq

/-- The enhanced system's per-`(strategy, risk_level)` cache files store the
whole result dict. -/
structure EnhCacheState where
  entries : List ((String × String) × BlendResult)
deriving DecidableEq

/-- `EnhancedAIRecommendationSystem._get_cached_recommendations`
(enhanced_ai_recommendations.py lines 312-345). -/
def enhGetCached (st : EnhCacheState) (strategy risk : String) (now ttl : ℚ) :
    Option BlendResult :=
  match assocFind2 (strategy, risk) st.entries with
  | none => none
  | some e => if now - e.timestamp > ttl then none else some e

/-- `EnhancedAIRecommendationSystem.get_recommendations`
(enhanced_ai_recommendations.py lines 68-203).  External effects enter as
parameters: `marketsResult` is `_get_filtered_market_data()` (its exceptions
are re-raised by the outer handler as a non-invalid-argument error);
`managerRes`, `enhancedRes` and `hybridRes` are the strategy-manager,
enhanced-OpenAI and hybrid-model calls, each delivering its return value or
its exception.  A manager or enhanced-model exception is caught and leaves
an empty list; a hybrid-model exception falls back to the (total) rule-based
model.  A cached result dict is always truthy, so a cache hit returns even
an empty cached list. -/
def enhancedGetRecommendations (st : EnhCacheState) (strategy : String) (maxRecs : ℤ)
    (risk : String) (forceRefresh cacheEnabled : Bool) (now ttl : ℚ)
    (marketsResult : Except String (List Market))
    (managerRes enhancedRes hybridRes : Except String (List Rec))
    (openaiEnabled useEnhanced : Bool) : Except BlendError (BlendResult × EnhCacheState) :=
  if pyLower strategy ∉
      ["momentum", "mean-reversion", "hybrid", "arbitrage", "volatility", "sentiment",
       "combined"] then
    Except.error (BlendError.invalidArgument ("Invalid strategy: " ++ strategy))
  else if pyLower risk ∉ ["low", "medium", "high"] then
    Except.error (BlendError.invalidArgument ("Invalid risk level: " ++ risk))
  else
    let cached :=
      if cacheEnabled ∧ ¬forceRefresh then enhGetCached st strategy risk now ttl else none
    match cached with
    | some e =>
      Except.ok ({ recommendations := pyTake maxRecs e.recommendations,
                   timestamp := e.timestamp, source := e.source, strategy := strategy,
                   riskLevel := risk, cached := true, message := none }, st)
    | none =>
      match marketsResult with
      | Except.error e => Except.error (BlendError.upstream e)
      | Except.ok marketsData =>
        if marketsData = [] then
          Except.ok ({ recommendations := [], timestamp := now, source := "none",
                       strategy := strategy, riskLevel := risk, cached := false,
                       message := some "No target hourly markets found" }, st)
        else
          let recsSource : List Rec × String :=
            if pyLower strategy ∈ ["arbitrage", "volatility", "sentiment", "combined"] then
              match managerRes with
              | Except.ok r => (r, pyLower strategy)
              | Except.error _ => ([], "rule_based")
            else
              let first : List Rec × String :=
                if openaiEnabled ∧ useEnhanced then
                  match enhancedRes with
                  | Except.ok r => (r, "enhanced_openai")
                  | Except.error _ => ([], "rule_based")
                else ([], "rule_based")
              if first.1 = [] then
                match hybridRes with
                | Except.ok h => (h, "hybrid")
                | Except.error _ =>
                  (ruleBasedGenerate marketsData (pyLower strategy) maxRecs (pyLower risk),
                   "rule_based")
              else first
          let result : BlendResult :=
            { recommendations := recsSource.1, timestamp := now, source := recsSource.2,
              strategy := strategy, riskLevel := risk, cached := false, message := none }
          let st' :=
            if cacheEnabled then { entries := assocSet2 (strategy, risk) result st.entries }
            else st
          Except.ok (result, st')

/-- Success test for modelled exception results. -/
def exceptIsOk : Except ε α → Bool
  | Except.ok _ => true
  | Except.error _ => false

/-- A market priced at 90 cents with high volume, the extreme-price scenario
of spec §8. -/
def mExtreme : Market :=
  { id := "KXBTCD-25JUL-T90000", title := "btc above 90000", yesBid := 88, yesAsk := 90,
    noBid := 8, noAsk := 10, volume24h := 25000 }

/-- A market priced at 85 cents: mean-reversion emits a Low-confidence NO for
it (above 0.80 but not above 0.90). -/
def mEightyFive : Market :=
  { id := "KXETHD-25JUL-T2600", title := "eth above 2600", yesBid := 83, yesAsk := 85,
    noBid := 13, noAsk := 15, volume24h := 9000 }

/-- Lower-strike range market of the arbitrage counterexample. -/
def mStrike100 : Market :=
  { id := "KXBTC-25JUL-B100", title := "btc range 100", yesBid := 28, yesAsk := 30,
    noBid := 78, noAsk := 80, volume24h := 100 }

/-- Middle-strike range market of the arbitrage counterexample: the NO leg of
the pair below it and the YES leg of the pair above it. -/
def mStrike200 : Market :=
  { id := "KXBTC-25JUL-B200", title := "btc range 200", yesBid := 28, yesAsk := 30,
    noBid := 58, noAsk := 60, volume24h := 100 }

/-- Upper-strike range market of the arbitrage counterexample. -/
def mStrike300 : Market :=
  { id := "KXBTC-25JUL-B300", title := "btc range 300", yesBid := 48, yesAsk := 50,
    noBid := 58, noAsk := 60, volume24h := 100 }

/-- Medium-confidence candidate with the smaller cost (sort tie-break
example). -/
def rCheap : Rec :=
  { marketId := "KXBTC-25JUL-B100", market := "btc range 100", action := "YES",
    probability := 30, contracts := 1, cost := 3 / 10, targetExit := 35, stopLoss := 25,
    confidence := "Medium", strategy := "arbitrage" }

/-- Medium-confidence candidate with the larger cost (sort tie-break
example). -/
def rDear : Rec :=
  { marketId := "KXBTC-25JUL-B200", market := "btc range 200", action := "NO",
    probability := 40, contracts := 1, cost := 6 / 10, targetExit := 55, stopLoss := 65,
    confidence := "Medium", strategy := "arbitrage" }

/-- A sample generated recommendation used in the cache round-trip
scenarios. -/
def rDemo : Rec :=
  { marketId := "KXBTCD-25JUL-T90000", market := "btc above 90000", action := "YES",
    probability := 90, contracts := 3, cost := 27 / 10, targetExit := 99, stopLoss := 80,
    confidence := "High", strategy := "" }

/-- Empty cache state. -/
def stEmpty : CacheState := { entries := [] }

/-- Empty performance ledger. -/
def perfEmpty : PerfData := { recommendations := [], performance := [] }

/-- Recommendation input for the tracker scenarios: a YES at entry price 50
for the momentum strategy, with a caller-chosen id. -/
def trackerInput (i : String) : RecInput :=
  { id := some i, marketId := some "KXBTCD-25JUL-T90000", strategy := some "momentum",
    action := some "YES", probability := some 50, targetExit := some 65,
    stopLoss := some 40, confidence := some "High" }

/-- Ledger with three open momentum records r1 r2 r3 (entry 50, action YES). -/
def ledgerOpen : PerfData :=
  recordRecommendation
    (recordRecommendation
      (recordRecommendation perfEmpty (some (trackerInput "r1")) 100 "fallback")
      (some (trackerInput "r2")) 101 "fallback")
    (some (trackerInput "r3")) 102 "fallback"

/-- The same ledger after closing r1 and r2 at 60 (wins) and r3 at 40
(loss): two wins and one loss for the momentum strategy. -/
def ledgerClosed : PerfData :=
  (updateRecommendationStatus
    ((updateRecommendationStatus
      ((updateRecommendationStatus ledgerOpen "r1" "closed" (some 60) none 200).2)
      "r2" "closed" (some 60) none 201).2)
    "r3" "closed" (some 40) none 202).2

/-- `ledgerClosed` after a further update that reopens the closed record r1
with a new exit price. -/
def ledgerReopened : PerfData :=
  (updateRecommendationStatus ledgerClosed "r1" "open" (some 30) none 300).2

theorem mem_pyInsert {le : α → α → Bool} {x a : α} {l : List α} :
    a ∈ pyInsert le x l ↔ a = x ∨ a ∈ l := by
  induction l with
  | nil => simp [pyInsert]
  | cons y ys ih =>
    simp only [pyInsert]
    split
    · simp [List.mem_cons]
    · simp only [List.mem_cons, ih]
      tauto

theorem mem_pySorted {le : α → α → Bool} {a : α} {l : List α} :
    a ∈ pySorted le l ↔ a ∈ l := by
  induction l with
  | nil => simp [pySorted]
  | cons y ys ih =>
    show a ∈ pyInsert le y (pySorted le ys) ↔ _
    rw [mem_pyInsert, ih]
    simp [List.mem_cons]

theorem pairwise_pyInsert {le : α → α → Bool}
    (htot : ∀ a b, le a b = false → le b a = true)
    (htrans : ∀ a b c, le a b = true → le b c = true → le a c = true)
    (x : α) {l : List α} (h : l.Pairwise (fun a b => le a b = true)) :
    (pyInsert le x l).Pairwise (fun a b => le a b = true) := by
  induction l with
  | nil => simp [pyInsert]
  | cons y ys ih =>
    simp only [pyInsert]
    rcases List.pairwise_cons.mp h with ⟨hy, hys⟩
    split
    case isTrue hxy =>
      refine List.Pairwise.cons ?_ h
      intro z hz
      rcases List.mem_cons.mp hz with rfl | hz
      · exact hxy
      · exact htrans x y z hxy (hy z hz)
    case isFalse hxy =>
      refine List.Pairwise.cons ?_ (ih hys)
      intro z hz
      rcases mem_pyInsert.mp hz with rfl | hz
      · exact htot z y (by simpa using hxy)
      · exact hy z hz

theorem pairwise_pySorted {le : α → α → Bool}
    (htot : ∀ a b, le a b = false → le b a = true)
    (htrans : ∀ a b c, le a b = true → le b c = true → le a c = true)
    (l : List α) : (pySorted le l).Pairwise (fun a b => le a b = true) := by
  induction l with
  | nil => simp [pySorted]
  | cons y ys ih => exact pairwise_pyInsert htot htrans y ih

theorem length_pyTake_le {n : ℤ} (h : 0 ≤ n) (xs : List α) :
    ((pyTake n xs).length : ℤ) ≤ n := by
  rw [pyTake, if_pos h]
  have h1 : (xs.take n.toNat).length ≤ n.toNat := by
    simp [List.length_take]
  omega

theorem pyTake_of_length_le {n : ℤ} {xs : List α} (h0 : 0 ≤ n)
    (h : (xs.length : ℤ) ≤ n) : pyTake n xs = xs := by
  rw [pyTake, if_pos h0]
  exact List.take_of_length_le (by omega)

theorem mem_pyTake {n : ℤ} {xs : List α} {a : α} (h : a ∈ pyTake n xs) : a ∈ xs := by
  rw [pyTake] at h
  split at h <;> exact List.take_subset _ _ h

theorem dedupPass_length_le {maxRecs : ℤ} :
    ∀ (l : List Rec) (acc : List Rec) (seen : List String),
      (acc.length : ℤ) < maxRecs →
      ((dedupPass maxRecs l acc seen).1.length : ℤ) ≤ maxRecs
  | [], acc, seen, h => by
    simpa [dedupPass] using le_of_lt h
  | r :: rest, acc, seen, h => by
    simp only [dedupPass]
    split
    · exact dedupPass_length_le rest acc seen h
    · split
      case isTrue hb => simpa using h
      case isFalse hb =>
        exact dedupPass_length_le rest (acc ++ [r]) (seen ++ [r.marketId]) (by push_neg at hb; exact hb)

theorem dedupPass_nodup {maxRecs : ℤ} :
    ∀ (l : List Rec) (acc : List Rec) (seen : List String),
      (acc.map (fun r => r.marketId)).Nodup →
      (∀ a ∈ acc, a.marketId ∈ seen) →
      ((dedupPass maxRecs l acc seen).1.map (fun r => r.marketId)).Nodup
  | [], acc, seen, hnd, hsub => by simpa [dedupPass] using hnd
  | r :: rest, acc, seen, hnd, hsub => by
    simp only [dedupPass]
    split
    · exact dedupPass_nodup rest acc seen hnd hsub
    case isFalse hnin =>
      have hnd' : ((acc ++ [r]).map (fun r => r.marketId)).Nodup := by
        rw [List.map_append]
        refine List.nodup_append.mpr ⟨hnd, List.nodup_singleton _, ?_⟩
        intro x hx hx'
        simp only [List.map_cons, List.map_nil, List.mem_singleton] at hx'
        subst hx'
        rcases List.mem_map.mp hx with ⟨a, ha, ha'⟩
        exact hnin (ha' ▸ hsub a ha)
      have hsub' : ∀ a ∈ acc ++ [r], a.marketId ∈ seen ++ [r.marketId] := by
        intro a ha
        rcases List.mem_append.mp ha with ha | ha
        · exact List.mem_append.mpr (Or.inl (hsub a ha))
        · simp only [List.mem_singleton] at ha
          subst ha
          exact List.mem_append.mpr (Or.inr (by simp))
      split
      · simpa using hnd'
      · exact dedupPass_nodup rest (acc ++ [r]) (seen ++ [r.marketId]) hnd' hsub'

theorem dedupPass_seen_mono {maxRecs : ℤ} :
    ∀ (l : List Rec) (acc : List Rec) (seen : List String) (x : String),
      x ∈ seen → x ∈ (dedupPass maxRecs l acc seen).2
  | [], acc, seen, x, hx => by simpa [dedupPass] using hx
  | r :: rest, acc, seen, x, hx => by
    simp only [dedupPass]
    split
    · exact dedupPass_seen_mono rest acc seen x hx
    · split
      · simpa using Or.inl hx
      · exact dedupPass_seen_mono rest (acc ++ [r]) (seen ++ [r.marketId]) x
          (List.mem_append.mpr (Or.inl hx))

theorem dedupPass_covers {maxRecs : ℤ} :
    ∀ (l : List Rec) (acc : List Rec) (seen : List String),
      ((dedupPass maxRecs l acc seen).1.length : ℤ) < maxRecs →
      ∀ r ∈ l, r.marketId ∈ (dedupPass maxRecs l acc seen).2
  | [], _, _, _, r, hr => absurd hr (List.not_mem_nil r)
  | r :: rest, acc, seen, hlt, a, ha => by
    by_cases hin : r.marketId ∈ seen
    · have heq : dedupPass maxRecs (r :: rest) acc seen = dedupPass maxRecs rest acc seen := by
        simp [dedupPass, hin]
      rw [heq] at hlt ⊢
      rcases List.mem_cons.mp ha with rfl | ha
      · exact dedupPass_seen_mono rest acc seen _ hin
      · exact dedupPass_covers rest acc seen hlt a ha
    · by_cases hb : maxRecs ≤ (acc.length : ℤ) + 1
      · have heq : dedupPass maxRecs (r :: rest) acc seen = (acc ++ [r], seen ++ [r.marketId]) := by
          simp [dedupPass, hin, hb]
        rw [heq] at hlt
        simp only [List.length_append, List.length_cons, List.length_nil] at hlt
        omega
      · have heq : dedupPass maxRecs (r :: rest) acc seen =
            dedupPass maxRecs rest (acc ++ [r]) (seen ++ [r.marketId]) := by
          simp [dedupPass, hin, hb]
        rw [heq] at hlt ⊢
        rcases List.mem_cons.mp ha with rfl | ha
        · exact dedupPass_seen_mono rest (acc ++ [a]) (seen ++ [a.marketId]) _
            (List.mem_append.mpr (Or.inr (by simp)))
        · exact dedupPass_covers rest (acc ++ [r]) (seen ++ [r.marketId]) hlt a ha

theorem hybridDedupFill_eq_dedup (combined : List Rec) (maxRecs : ℤ) :
    hybridDedupFill combined maxRecs = (dedupPass maxRecs combined [] []).1 := by
  rw [hybridDedupFill]
  split
  case isTrue hlt =>
    have hcov := @dedupPass_covers maxRecs combined [] [] hlt
    have hrem : combined.filter
        (fun r => decide (r.marketId ∉ (dedupPass maxRecs combined [] []).2)) = [] := by
      rw [List.filter_eq_nil_iff]
      intro a ha
      simpa using hcov a ha
    rw [hrem]
    simp [pySorted, fillLoop]
  case isFalse => rfl

theorem confCostKeyGE_total (a b : Rec) (h : confCostKeyGE a b = false) :
    confCostKeyGE b a = true := by
  simp only [confCostKeyGE, decide_eq_false_iff_not, not_or, not_and, not_le] at h
  obtain ⟨h1, h2⟩ := h
  simp only [confCostKeyGE, decide_eq_true_eq]
  by_cases heq : confRank a.confidence = confRank b.confidence
  · exact Or.inr ⟨heq.symm, le_of_lt (h2 heq)⟩
  · exact Or.inl (by omega)

theorem confCostKeyGE_trans (a b c : Rec) (hab : confCostKeyGE a b = true)
    (hbc : confCostKeyGE b c = true) : confCostKeyGE a c = true := by
  simp only [confCostKeyGE, decide_eq_true_eq] at hab hbc ⊢
  rcases hab with h1 | ⟨e1, c1⟩ <;> rcases hbc with h2 | ⟨e2, c2⟩
  · exact Or.inl (h2.trans h1)
  · exact Or.inl (e2 ▸ h1)
  · exact Or.inl (e1 ▸ h2)
  · exact Or.inr ⟨e1.trans e2, c1.trans c2⟩

/-- Claim C1 (corrected).  The hybrid-path blend with `max_count ≥ 1` returns
at most `max_count` recommendations with pairwise-distinct market ids; the
strategy-manager path (arbitrage / volatility / sentiment / combined)
truncates to `max_count` (so its length bound holds for `max_count ≥ 0`) but
performs no deduplication, so its entries need not be unique by market id
(see the counterexample), and for `max_count = 0` the hybrid path can return
one entry because the break is only checked after an append. -/
theorem C1_blend_bounded_and_unique
    (openaiEnabled : Bool) (openaiMomentum openaiMeanRev : List Rec)
    (markets : List Market) (maxRecs : ℤ) (risk : String)
    (recs : List Rec) (maxRecs' : ℤ) (risk' : String)
    (h1 : 1 ≤ maxRecs) (h2 : 0 ≤ maxRecs') :
    ((hybridStrategyRecommendations openaiEnabled openaiMomentum openaiMeanRev markets
        maxRecs risk).length : ℤ) ≤ maxRecs ∧
    ((hybridStrategyRecommendations openaiEnabled openaiMomentum openaiMeanRev markets
        maxRecs risk).map (fun r => r.marketId)).Nodup ∧
    ((managerPostProcess recs maxRecs' risk').length : ℤ) ≤ maxRecs' := by
  refine ⟨?_, ?_, ?_⟩
  · simp only [hybridStrategyRecommendations]
    rw [hybridDedupFill_eq_dedup]
    exact dedupPass_length_le _ [] [] (by simp only [List.length_nil, Int.ofNat_zero]; omega)
  · simp only [hybridStrategyRecommendations]
    rw [hybridDedupFill_eq_dedup]
    exact dedupPass_nodup _ [] [] (by simp) (by simp)
  · rw [managerPostProcess]
    exact length_pyTake_le h2 _

/-- Witness for C1 at a concrete instance. -/
theorem C1_blend_bounded_and_unique_witness :
    (1 ≤ (3 : ℤ) ∧ 0 ≤ (5 : ℤ)) ∧
    (((hybridStrategyRecommendations false [] [] [mExtreme] 3 "medium").length : ℤ) ≤ 3 ∧
      ((hybridStrategyRecommendations false [] [] [mExtreme] 3 "medium").map
        (fun r => r.marketId)).Nodup ∧
      ((managerPostProcess [rCheap] 5 "medium").length : ℤ) ≤ 5) :=
  ⟨⟨by decide, by decide⟩,
    C1_blend_bounded_and_unique false [] [] [mExtreme] 3 "medium" [rCheap] 5 "medium"
      (by decide) (by decide)⟩

/-- Counterexample for C1 as stated: on the arbitrage path the middle strike
is the NO leg of one adjacent pair and the YES leg of the next, the manager
blend never deduplicates, and the final recommendation set repeats a
market id. -/
theorem C1_counterexample :
    ¬ ((managerArbitrage [mStrike100, mStrike200, mStrike300] 5 "medium").map
        (fun r => r.marketId)).Nodup :=
  of_decide_eq_true (by with_unfolding_all rfl)

/-- Claim C7 (corrected).  The hybrid fill step never adds a candidate after
deduplication: whenever the fill branch runs, every leftover candidate's
market is already in `seen_market_ids`, so dedup-then-fill equals the dedup
pass alone (first conjunct).  The strategy-manager sort orders candidates by
confidence rank descending with equal-rank ties broken by cost ASCENDING,
not descending — `confCostKeyGE` is exactly "rank higher, or rank equal and
cost at most" (second conjunct). -/
theorem C7_fill_and_sort_order (combined : List Rec) (maxRecs : ℤ) (recs : List Rec) :
    hybridDedupFill combined maxRecs = (dedupPass maxRecs combined [] []).1 ∧
    (sortByConfidence recs).Pairwise (fun a b => confCostKeyGE a b = true) :=
  ⟨hybridDedupFill_eq_dedup combined maxRecs,
    pairwise_pySorted confCostKeyGE_total confCostKeyGE_trans recs⟩

/-- Counterexample for C7 as stated: two equal-confidence candidates come
out of the manager sort with the SMALLER cost first. -/
theorem C7_counterexample :
    sortByConfidence [rDear, rCheap] = [rCheap, rDear] ∧
    rCheap.confidence = rDear.confidence ∧ rCheap.cost < rDear.cost :=
  of_decide_eq_true (by with_unfolding_all rfl)

/-- Claim C3 (corrected).  On the strategy-manager path the risk filter does
hold: every entry of a low-risk result has confidence High, and no entry of
a medium-risk result has confidence Low.  The momentum / mean-reversion /
hybrid rule-based path applies no confidence filtering at all (see the
counterexample). -/
theorem C3_manager_risk_filter (recs : List Rec) (maxRecs maxRecs' : ℤ) (r1 r2 : Rec)
    (h1 : r1 ∈ managerPostProcess recs maxRecs "low")
    (h2 : r2 ∈ managerPostProcess recs maxRecs' "medium") :
    r1.confidence = "High" ∧ r2.confidence ≠ "Low" := by
  constructor
  · rw [managerPostProcess] at h1
    have hm := mem_pySorted.mp (mem_pyTake h1)
    rw [filterByRiskLevel] at hm
    norm_num at hm
    exact of_decide_eq_true (List.mem_filter.mp hm).2
  · rw [managerPostProcess] at h2
    have hm := mem_pySorted.mp (mem_pyTake h2)
    rw [filterByRiskLevel] at hm
    norm_num at hm
    have hp := (List.mem_filter.mp hm).2
    simp only [Bool.not_eq_true', decide_eq_false_iff_not] at hp
    exact hp

/-- Witness for C3 at a concrete instance. -/
theorem C3_manager_risk_filter_witness :
    (rCheap ∈ managerPostProcess [rCheap, rDemo] 5 "low" →
      rCheap ∈ managerPostProcess [rCheap, rDemo] 5 "medium" →
        rCheap.confidence = "High" ∧ rCheap.confidence ≠ "Low") ∧
    rDemo ∈ managerPostProcess [rCheap, rDemo] 5 "low" ∧
    rCheap ∈ managerPostProcess [rCheap, rDemo] 5 "medium" ∧
    rDemo.confidence = "High" ∧ rCheap.confidence ≠ "Low" := by
  refine ⟨fun ha hb => C3_manager_risk_filter [rCheap, rDemo] 5 5 rCheap rCheap ha hb, ?_, ?_, ?_⟩
  · exact of_decide_eq_true (by with_unfolding_all rfl)
  · exact of_decide_eq_true (by with_unfolding_all rfl)
  · exact ⟨(C3_manager_risk_filter [rCheap, rDemo] 5 5 rDemo rCheap
      (of_decide_eq_true (by with_unfolding_all rfl))
      (of_decide_eq_true (by with_unfolding_all rfl))).1,
    (C3_manager_risk_filter [rCheap, rDemo] 5 5 rDemo rCheap
      (of_decide_eq_true (by with_unfolding_all rfl))
      (of_decide_eq_true (by with_unfolding_all rfl))).2⟩

/-- Counterexample for C3 as stated: a final recommendation set of the
rule-based mean-reversion path requested with risk_level = low contains a
Low-confidence entry (mean-reversion never emits High, and this path has no
risk filter). -/
theorem C3_counterexample :
    (hybridGenerate false (Except.ok []) [] [] [mEightyFive] "mean-reversion" 5 "low").map
      (fun r => r.confidence) = ["Low"] :=
  of_decide_eq_true (by with_unfolding_all rfl)

theorem recLoop_singleton (maxRecs : ℤ) (step : Market → Option Rec) (m : Market)
    (r : Rec) (h : step m = some r) : recLoop maxRecs step [m] [] = [r] := by
  simp only [recLoop, h]
  split <;> simp [recLoop]

theorem pyTake_double_singleton (maxRecs : ℤ) (hmax : 1 ≤ maxRecs) (m : Market) :
    pyTake (maxRecs * 2) [m] = [m] :=
  pyTake_of_length_le (by omega) (by simp only [List.length_cons, List.length_nil]; omega)

theorem momentumStep_at_90 (risk : String) (m : Market) (h90 : m.yesAsk = 90) :
    ∃ r, momentumStep risk m = some r ∧ r.action = "YES" ∧ r.confidence = "High" := by
  simp only [momentumStep, h90]
  norm_num

theorem meanReversionStep_at_90 (risk : String) (m : Market) (h90 : m.yesAsk = 90) :
    ∃ r, meanReversionStep risk m = some r ∧ r.action = "NO" ∧ r.confidence = "Low" := by
  simp only [meanReversionStep, h90]
  norm_num

/-- Claim C9 (confirmed).  On a market whose YES ask is 90 cents (any
volume, any title), the momentum scorer emits exactly one candidate, with
action YES and confidence High, and the mean-reversion scorer on the same
market emits exactly one candidate with action NO: the two strategies
disagree on such extreme-priced markets. -/
theorem C9_extreme_price_disagreement (m : Market) (maxRecs : ℤ) (risk : String)
    (h90 : m.yesAsk = 90) (hmax : 1 ≤ maxRecs) :
    (ruleBasedGenerate [m] "momentum" maxRecs risk).map (fun r => (r.action, r.confidence))
      = [("YES", "High")] ∧
    (ruleBasedGenerate [m] "mean-reversion" maxRecs risk).map (fun r => r.action) = ["NO"] := by
  constructor
  · rw [ruleBasedGenerate, if_pos rfl]
    simp only [momentumRecommendations, pySorted, List.foldr, pyInsert]
    rw [pyTake_double_singleton maxRecs hmax m]
    obtain ⟨r, hr, ha, hc⟩ := momentumStep_at_90 risk m h90
    rw [recLoop_singleton maxRecs _ m r hr]
    simp [ha, hc]
  · rw [ruleBasedGenerate, if_neg (by decide), if_pos rfl]
    simp only [meanReversionRecommendations, pySorted, List.foldr, pyInsert]
    rw [pyTake_double_singleton maxRecs hmax m]
    obtain ⟨r, hr, ha, hc⟩ := meanReversionStep_at_90 risk m h90
    rw [recLoop_singleton maxRecs _ m r hr]
    simp [ha]

/-- Witness for C9 at a concrete instance. -/
theorem C9_extreme_price_disagreement_witness :
    (mExtreme.yesAsk = 90 ∧ 1 ≤ (3 : ℤ)) ∧
    ((ruleBasedGenerate [mExtreme] "momentum" 3 "medium").map
        (fun r => (r.action, r.confidence)) = [("YES", "High")] ∧
      (ruleBasedGenerate [mExtreme] "mean-reversion" 3 "medium").map
        (fun r => r.action) = ["NO"]) :=
  ⟨⟨rfl, by decide⟩, C9_extreme_price_disagreement mExtreme 3 "medium" rfl (by decide)⟩

theorem applyStatusUpdate_id (r : PerfRecord) (st : String) (x : Option ℚ)
    (notes : Option String) (now : ℤ) : (applyStatusUpdate r st x notes now).id = r.id := by
  cases x <;> cases notes <;> simp only [applyStatusUpdate] <;> (try split) <;> rfl

theorem applyStatusUpdate_fields (r : PerfRecord) (st : String) (x : ℚ)
    (notes : Option String) (now : ℤ) :
    (applyStatusUpdate r st (some x) notes now).status = st ∧
    (applyStatusUpdate r st (some x) notes now).exitPrice = some x ∧
    (applyStatusUpdate r st (some x) notes now).result =
      some (if r.action = "YES" then (if x > r.entryPrice then "win" else "loss")
            else (if x < r.entryPrice then "win" else "loss")) ∧
    (applyStatusUpdate r st (some x) notes now).profitLoss =
      some (if r.action = "YES" then x - r.entryPrice else r.entryPrice - x) := by
  refine ⟨?_, ?_, ?_, ?_⟩ <;> cases notes <;> simp only [applyStatusUpdate] <;>
    (try split) <;> trivial

theorem updateInList_of_find_none {recId st : String} {x : Option ℚ} {n : Option String}
    {now : ℤ} : ∀ {l : List PerfRecord}, l.find? (fun r => r.id = recId) = none →
    updateInList recId st x n now l = none
  | [], _ => rfl
  | r :: rest, h => by
    by_cases hid : r.id = recId
    · rw [List.find?_cons_of_pos _ (by simpa using hid)] at h
      exact absurd h (by simp)
    · rw [List.find?_cons_of_neg _ (by simpa using hid)] at h
      rw [updateInList, if_neg hid, updateInList_of_find_none h]
      rfl

theorem updateInList_of_find_some {recId st : String} {x : Option ℚ} {n : Option String}
    {now : ℤ} : ∀ {l : List PerfRecord} {r : PerfRecord},
    l.find? (fun r => r.id = recId) = some r →
    ∃ l', updateInList recId st x n now l = some l' ∧
      l'.find? (fun rec => rec.id = recId) = some (applyStatusUpdate r st x n now)
  | [], r, h => by simp at h
  | a :: rest, r, h => by
    by_cases hid : a.id = recId
    · rw [List.find?_cons_of_pos _ (by simpa using hid)] at h
      have har : a = r := by simpa using h
      subst har
      refine ⟨applyStatusUpdate a st x n now :: rest, ?_, ?_⟩
      · rw [updateInList, if_pos hid]
      · exact List.find?_cons_of_pos _ (by simp [applyStatusUpdate_id, hid])
    · rw [List.find?_cons_of_neg _ (by simpa using hid)] at h
      obtain ⟨l', hl', hf⟩ := @updateInList_of_find_some recId st x n now rest r h
      refine ⟨a :: l', ?_, ?_⟩
      · rw [updateInList, if_neg hid, hl']
        rfl
      · rw [List.find?_cons_of_neg _ (by simpa using hid)]
        exact hf

theorem updateAcross_of_find_none {recId st : String} {x : Option ℚ} {n : Option String}
    {now : ℤ} : ∀ {strats : List (String × List PerfRecord)},
    findInStrats recId strats = none →
    updateAcross recId st x n now strats = none
  | [], _ => rfl
  | (s, recs) :: rest, h => by
    rw [findInStrats] at h
    rw [updateAcross]
    rcases hr : recs.find? (fun r => r.id = recId) with _ | r
    · rw [hr] at h
      rw [updateInList_of_find_none hr, updateAcross_of_find_none h]
      rfl
    · rw [hr] at h
      exact absurd h (by simp)

theorem updateAcross_of_find_some {recId st : String} {x : Option ℚ} {n : Option String}
    {now : ℤ} : ∀ {strats : List (String × List PerfRecord)} {r : PerfRecord},
    findInStrats recId strats = some r →
    ∃ s strats', updateAcross recId st x n now strats = some (s, strats') ∧
      findInStrats recId strats' = some (applyStatusUpdate r st x n now)
  | [], r, h => by simp [findInStrats] at h
  | (s, recs) :: rest, r, h => by
    rw [findInStrats] at h
    rcases hr : recs.find? (fun rec => rec.id = recId) with _ | r0
    · rw [hr] at h
      obtain ⟨s', strats', hup, hfind⟩ := @updateAcross_of_find_some recId st x n now rest r h
      refine ⟨s', (s, recs) :: strats', ?_, ?_⟩
      · rw [updateAcross, updateInList_of_find_none hr, hup]
        rfl
      · rw [findInStrats, hr]
        exact hfind
    · rw [hr] at h
      obtain rfl : r0 = r := by simpa using h
      obtain ⟨l', hl', hf⟩ := @updateInList_of_find_some recId st x n now recs r0 hr
      refine ⟨s, (s, l') :: rest, ?_, ?_⟩
      · rw [updateAcross, hl']
      · rw [findInStrats, hf]

theorem updateStrategyPerformance_recommendations (d : PerfData) (s : String) (t : ℤ) :
    (updateStrategyPerformance d s t).recommendations = d.recommendations := by
  rw [updateStrategyPerformance]
  rcases assocFind s d.recommendations with _ | recs <;> rfl

theorem updateStatus_found {data : PerfData} {recId : String} {r : PerfRecord}
    (st : String) (x : Option ℚ) (notes : Option String) (now : ℤ)
    (h : findRecordById data recId = some r) :
    (updateRecommendationStatus data recId st x notes now).1 = true ∧
    findRecordById (updateRecommendationStatus data recId st x notes now).2 recId =
      some (applyStatusUpdate r st x notes now) := by
  rw [findRecordById] at h
  obtain ⟨s, strats', hup, hfind⟩ := @updateAcross_of_find_some recId st x notes now data.recommendations r h
  rw [updateRecommendationStatus, hup]
  refine ⟨rfl, ?_⟩
  rw [findRecordById, updateStrategyPerformance_recommendations]
  exact hfind

/-- Claim C2 (corrected).  Closing a recorded recommendation stores
`result = win` iff (action is YES and the exit beats the entry) or (action
is not YES — in particular NO — and the exit is below the entry), else
`loss`; `profit_loss` is `exit - entry` for YES and `entry - exit`
otherwise.  After closing two wins and one loss for one strategy the stored
aggregate `win_rate` is exactly `2/3 * 100 = 200/3` (≈ 66.667): the code
never rounds, so it does NOT equal 66.7 (see the counterexample). -/
theorem C2_close_result_profit_and_win_rate
    (data : PerfData) (recId : String) (x : ℚ) (notes : Option String) (now : ℤ)
    (r : PerfRecord) (hfound : findRecordById data recId = some r) :
    ((updateRecommendationStatus data recId "closed" (some x) notes now).1 = true ∧
      findRecordById (updateRecommendationStatus data recId "closed" (some x) notes now).2
        recId = some (applyStatusUpdate r "closed" (some x) notes now) ∧
      ((applyStatusUpdate r "closed" (some x) notes now).result = some "win" ↔
        ((r.action = "YES" ∧ r.entryPrice < x) ∨ (r.action ≠ "YES" ∧ x < r.entryPrice))) ∧
      ((applyStatusUpdate r "closed" (some x) notes now).result = some "win" ∨
        (applyStatusUpdate r "closed" (some x) notes now).result = some "loss") ∧
      (applyStatusUpdate r "closed" (some x) notes now).profitLoss =
        some (if r.action = "YES" then x - r.entryPrice else r.entryPrice - x)) ∧
    (getStrategyPerformance ledgerClosed "momentum" 400).winRate = 200 / 3 ∧
    (200 : ℚ) / 3 ≠ 667 / 10 := by
  obtain ⟨h1, h2⟩ := updateStatus_found "closed" (some x) notes now hfound
  obtain ⟨_, _, hres, hpl⟩ := applyStatusUpdate_fields r "closed" x notes now
  refine ⟨⟨h1, h2, ?_, ?_, hpl⟩, ?_, ?_⟩
  · rw [hres]
    by_cases hA : r.action = "YES"
    · rw [if_pos hA]
      by_cases hx : x > r.entryPrice
      · simp [hA, hx, gt_iff_lt, le_of_lt]
      · simp only [gt_iff_lt] at hx
        simp [hA, hx, if_neg]
    · rw [if_neg hA]
      by_cases hx : x < r.entryPrice
      · simp [hA, hx]
      · simp [hA, hx]
  · rw [hres]
    split <;> split <;> simp
  · exact of_decide_eq_true (by with_unfolding_all rfl)
  · exact of_decide_eq_true (by with_unfolding_all rfl)

/-- Witness for C2 at a concrete instance: the first record of `ledgerOpen`,
closed at exit price 60 (a win), and the two-wins-one-loss aggregate. -/
theorem C2_close_result_profit_and_win_rate_witness :
    (findRecordById ledgerOpen "r1" = some
      { id := "r1", marketId := "KXBTCD-25JUL-T90000", strategy := "momentum",
        action := "YES", entryPrice := 50, targetExit := 65, stopLoss := 40,
        confidence := "High", timestamp := 100, status := "open", exitPrice := none,
        exitTimestamp := none, result := none, profitLoss := none, notes := "" }) ∧
    (updateRecommendationStatus ledgerOpen "r1" "closed" (some 60) none 200).1 = true ∧
    findRecordById
        (updateRecommendationStatus ledgerOpen "r1" "closed" (some 60) none 200).2 "r1" =
      some (applyStatusUpdate
        { id := "r1", marketId := "KXBTCD-25JUL-T90000", strategy := "momentum",
          action := "YES", entryPrice := 50, targetExit := 65, stopLoss := 40,
          confidence := "High", timestamp := 100, status := "open", exitPrice := none,
          exitTimestamp := none, result := none, profitLoss := none, notes := "" }
        "closed" (some 60) none 200) ∧
    (getStrategyPerformance ledgerClosed "momentum" 400).winRate = 200 / 3 ∧
    (200 : ℚ) / 3 ≠ 667 / 10 :=
  have hf : findRecordById ledgerOpen "r1" = some
      { id := "r1", marketId := "KXBTCD-25JUL-T90000", strategy := "momentum",
        action := "YES", entryPrice := 50, targetExit := 65, stopLoss := 40,
        confidence := "High", timestamp := 100, status := "open", exitPrice := none,
        exitTimestamp := none, result := none, profitLoss := none, notes := "" } :=
    of_decide_eq_true (by with_unfolding_all rfl)
  have ht := C2_close_result_profit_and_win_rate ledgerOpen "r1" 60 none 200 _ hf
  ⟨hf, ht.1.1, ht.1.2.1, ht.2.1, ht.2.2⟩

/-- Counterexample for C2 as stated: after two wins and one loss the stored
win_rate is 200/3 = 66.666..., which is not 66.7. -/
theorem C2_counterexample :
    (getStrategyPerformance ledgerClosed "momentum" 400).winRate ≠ 667 / 10 :=
  of_decide_eq_true (by with_unfolding_all rfl)

/-- Claim C5 (corrected).  `update_recommendation_status` never inspects the
record's current status: for ANY found record — closed or expired included —
it unconditionally overwrites the status with the new value and, when an
exit price is supplied, overwrites exit_price / result / profit_loss.  So
"closed" and "expired" are not terminal in the code (see the
counterexample, which reopens a closed record). -/
theorem C5_update_overwrites_terminal_states
    (data : PerfData) (recId st : String) (x : ℚ) (notes : Option String) (now : ℤ)
    (r : PerfRecord) (hfound : findRecordById data recId = some r) :
    (updateRecommendationStatus data recId st (some x) notes now).1 = true ∧
    findRecordById (updateRecommendationStatus data recId st (some x) notes now).2 recId =
      some (applyStatusUpdate r st (some x) notes now) ∧
    (applyStatusUpdate r st (some x) notes now).status = st ∧
    (applyStatusUpdate r st (some x) notes now).exitPrice = some x := by
  obtain ⟨h1, h2⟩ := updateStatus_found st (some x) notes now hfound
  obtain ⟨h3, h4, _, _⟩ := applyStatusUpdate_fields r st x notes now
  exact ⟨h1, h2, h3, h4⟩

/-- Witness for C5 at a concrete instance: reopening the closed record r1 of
`ledgerClosed`. -/
theorem C5_update_overwrites_terminal_states_witness :
    (findRecordById ledgerClosed "r1" = some
      { id := "r1", marketId := "KXBTCD-25JUL-T90000", strategy := "momentum",
        action := "YES", entryPrice := 50, targetExit := 65, stopLoss := 40,
        confidence := "High", timestamp := 100, status := "closed", exitPrice := some 60,
        exitTimestamp := some 200, result := some "win", profitLoss := some 10,
        notes := "" }) ∧
    (updateRecommendationStatus ledgerClosed "r1" "open" (some 30) none 300).1 = true ∧
    findRecordById
        (updateRecommendationStatus ledgerClosed "r1" "open" (some 30) none 300).2 "r1" =
      some (applyStatusUpdate
        { id := "r1", marketId := "KXBTCD-25JUL-T90000", strategy := "momentum",
          action := "YES", entryPrice := 50, targetExit := 65, stopLoss := 40,
          confidence := "High", timestamp := 100, status := "closed", exitPrice := some 60,
          exitTimestamp := some 200, result := some "win", profitLoss := some 10,
          notes := "" }
        "open" (some 30) none 300) ∧
    (applyStatusUpdate
        { id := "r1", marketId := "KXBTCD-25JUL-T90000", strategy := "momentum",
          action := "YES", entryPrice := 50, targetExit := 65, stopLoss := 40,
          confidence := "High", timestamp := 100, status := "closed", exitPrice := some 60,
          exitTimestamp := some 200, result := some "win", profitLoss := some 10,
          notes := "" }
        "open" (some 30) none 300).status = "open" ∧
    (applyStatusUpdate
        { id := "r1", marketId := "KXBTCD-25JUL-T90000", strategy := "momentum",
          action := "YES", entryPrice := 50, targetExit := 65, stopLoss := 40,
          confidence := "High", timestamp := 100, status := "closed", exitPrice := some 60,
          exitTimestamp := some 200, result := some "win", profitLoss := some 10,
          notes := "" }
        "open" (some 30) none 300).exitPrice = some 30 :=
  have hf : findRecordById ledgerClosed "r1" = some
      { id := "r1", marketId := "KXBTCD-25JUL-T90000", strategy := "momentum",
        action := "YES", entryPrice := 50, targetExit := 65, stopLoss := 40,
        confidence := "High", timestamp := 100, status := "closed", exitPrice := some 60,
        exitTimestamp := some 200, result := some "win", profitLoss := some 10,
        notes := "" } :=
    of_decide_eq_true (by with_unfolding_all rfl)
  ⟨hf, C5_update_overwrites_terminal_states ledgerClosed "r1" "open" 30 none 300 _ hf⟩

/-- Counterexample for C5 as stated: the record r1 is closed in
`ledgerClosed`, yet a later update changes its status, exit price, result
and profit_loss. -/
theorem C5_counterexample :
    (findRecordById ledgerClosed "r1").map (fun r => r.status) = some "closed" ∧
    (findRecordById ledgerReopened "r1").map
        (fun r => (r.status, r.exitPrice, r.result, r.profitLoss)) =
      some ("open", some 30, some "loss", some (-20)) :=
  of_decide_eq_true (by with_unfolding_all rfl)

theorem findInStrats_none_of_not_mem {recId : String} :
    ∀ {strats : List (String × List PerfRecord)},
      (∀ p ∈ strats, ∀ rec ∈ p.2, rec.id ≠ recId) → findInStrats recId strats = none
  | [], _ => rfl
  | (s, recs) :: rest, h => by
    rw [findInStrats]
    have hrecs : recs.find? (fun r => r.id = recId) = none := by
      rw [List.find?_eq_none]
      intro rec hrec
      simpa using h (s, recs) (by simp) rec hrec
    rw [hrecs]
    exact findInStrats_none_of_not_mem (fun p hp => h p (List.mem_cons_of_mem _ hp))

/-- Claim C8 (confirmed).  Updating an unknown recommendation id returns
`False` without raising and leaves the whole tracker state — ledger and
every strategy aggregate — unchanged. -/
theorem C8_unknown_id_is_noop (data : PerfData) (recId st : String) (x : Option ℚ)
    (notes : Option String) (now : ℤ) (h : recId ∉ allRecordIds data) :
    updateRecommendationStatus data recId st x notes now = (false, data) := by
  simp only [allRecordIds] at h
  have hforall : ∀ p ∈ data.recommendations, ∀ rec ∈ p.2, rec.id ≠ recId := by
    intro p hp rec hrec heq
    exact h (List.mem_flatten.mpr ⟨p.2.map (fun r => r.id),
      List.mem_map.mpr ⟨p, hp, rfl⟩, List.mem_map.mpr ⟨rec, hrec, heq⟩⟩)
  rw [updateRecommendationStatus, updateAcross_of_find_none
    (findInStrats_none_of_not_mem hforall)]

/-- Witness for C8 at a concrete instance. -/
theorem C8_unknown_id_is_noop_witness :
    "ghost" ∉ allRecordIds ledgerOpen ∧
    updateRecommendationStatus ledgerOpen "ghost" "closed" (some 1) none 999 =
      (false, ledgerOpen) :=
  have hn : "ghost" ∉ allRecordIds ledgerOpen :=
    of_decide_eq_true (by with_unfolding_all rfl)
  ⟨hn, C8_unknown_id_is_noop ledgerOpen "ghost" "closed" (some 1) none 999 hn⟩

/-- Claim C10 (confirmed).  `get_strategy_performance` on a strategy with no
aggregate entry is a pure read returning the zeroed aggregate (all counts,
rates and totals 0, `last_updated` the current time); it touches no stored
state — in this embedding it does not even produce a new `PerfData`. -/
theorem C10_unknown_strategy_zero_aggregate (data : PerfData) (strategy : String)
    (now : ℤ) (h : assocFind strategy data.performance = none) :
    getStrategyPerformance data strategy now =
      { strategy := strategy, winCount := 0, lossCount := 0, openCount := 0, winRate := 0,
        avgProfit := 0, avgLoss := 0, totalProfitLoss := 0, accuracy := 0,
        lastUpdated := now } := by
  rw [getStrategyPerformance, h]

/-- Witness for C10 at a concrete instance. -/
theorem C10_unknown_strategy_zero_aggregate_witness :
    assocFind "volatility" perfEmpty.performance = none ∧
    getStrategyPerformance perfEmpty "volatility" 7 =
      { strategy := "volatility", winCount := 0, lossCount := 0, openCount := 0,
        winRate := 0, avgProfit := 0, avgLoss := 0, totalProfitLoss := 0, accuracy := 0,
        lastUpdated := 7 } :=
  ⟨rfl, C10_unknown_strategy_zero_aggregate perfEmpty "volatility" 7 rfl⟩

theorem assocFind2_set_self {β : Type} (k : String × String) (v : β) :
    ∀ l : List ((String × String) × β), assocFind2 k (assocSet2 k v l) = some v
  | [] => by simp [assocSet2, assocFind2]
  | (k', v') :: rest => by
    rw [assocSet2]
    by_cases hk : k' = k
    · rw [if_pos hk]
      simp [assocFind2]
    · rw [if_neg hk]
      rw [assocFind2, List.find?_cons_of_neg _ (by simpa using hk)]
      exact assocFind2_set_self k v rest

theorem getCached_write (st : CacheState) (strategy risk : String) (t now ttl : ℚ)
    (recs : List Rec) :
    getCachedRecommendations (writeCache st strategy risk t recs) strategy risk now ttl =
      if now - t > ttl then none else some recs := by
  rw [getCachedRecommendations, writeCache]
  rw [show assocFind2 (strategy, risk)
      (assocSet2 (strategy, risk)
        { timestamp := t, strategy := strategy, riskLevel := risk, recommendations := recs }
        st.entries) =
      some { timestamp := t, strategy := strategy, riskLevel := risk,
             recommendations := recs } from assocFind2_set_self _ _ _]

theorem exceptIsOk_ite {ε α : Type} {c : Prop} [Decidable c] {x y : Except ε α}
    (hx : exceptIsOk x = true) (hy : exceptIsOk y = true) :
    exceptIsOk (if c then x else y) = true := by
  split
  · exact hx
  · exact hy

/-- Claim C6 (corrected).  When the first call misses the cache and
generates a NONEMPTY list R (of length within `max_count`), a second call
with the same strategy, max_count and risk level, `force_refresh = false`,
within the TTL, returns exactly R again, served from the cache: its outcome
is the same for EVERY value of the generator argument `g`, so nothing is
regenerated.  An empty first result is stored but falsy on read
(`if cached_recommendations:`), so the second call regenerates — see the
counterexample. -/
theorem C6_cache_idempotent_for_nonempty
    (st0 : CacheState) (strategy risk : String) (maxRecs : ℤ) (t1 t2 ttl : ℚ)
    (recsR : List Rec) (g : Except String (List Rec))
    (hs : pyLower strategy ∈ ["momentum", "mean-reversion", "hybrid"])
    (hr : pyLower risk ∈ ["low", "medium", "high"])
    (hmiss : getCachedRecommendations st0 strategy risk t1 ttl = none)
    (hne : recsR ≠ []) (hlen : (recsR.length : ℤ) ≤ maxRecs) (hfresh : t2 - t1 ≤ ttl) :
    aiGetRecommendations st0 strategy maxRecs risk false true t1 ttl (Except.ok recsR) =
      Except.ok (recsR, writeCache st0 strategy risk t1 recsR) ∧
    aiGetRecommendations (writeCache st0 strategy risk t1 recsR) strategy maxRecs risk
        false true t2 ttl g =
      Except.ok (recsR, writeCache st0 strategy risk t1 recsR) := by
  constructor
  · rw [aiGetRecommendations.eq_def, if_neg (not_not_intro hs), if_neg (not_not_intro hr)]
    rw [if_pos (show (true = true) ∧ ¬(false = true) by simp)]
    rw [hmiss]
    rfl
  · rw [aiGetRecommendations.eq_def, if_neg (not_not_intro hs), if_neg (not_not_intro hr)]
    rw [if_pos (show (true = true) ∧ ¬(false = true) by simp)]
    rw [getCached_write, if_neg (not_lt.mpr hfresh)]
    obtain ⟨b, L, rfl⟩ := List.exists_cons_of_ne_nil hne
    have htake : pyTake maxRecs (b :: L) = b :: L :=
      pyTake_of_length_le (by simp only [List.length_cons] at hlen; omega) hlen
    show Except.ok (pyTake maxRecs (b :: L), writeCache st0 strategy risk t1 (b :: L)) =
      Except.ok (b :: L, writeCache st0 strategy risk t1 (b :: L))
    rw [htake]

/-- Witness for C6 at a concrete instance (the generator argument of the
second call is a failure, yet the call still answers from the cache). -/
theorem C6_cache_idempotent_for_nonempty_witness :
    (pyLower "momentum" ∈ ["momentum", "mean-reversion", "hybrid"] ∧
      pyLower "medium" ∈ ["low", "medium", "high"] ∧
      getCachedRecommendations stEmpty "momentum" "medium" 0 600 = none ∧
      ([rDemo] : List Rec) ≠ [] ∧ (([rDemo] : List Rec).length : ℤ) ≤ 5 ∧
      (60 : ℚ) - 0 ≤ 600) ∧
    (aiGetRecommendations stEmpty "momentum" 5 "medium" false true 0 600
        (Except.ok [rDemo]) =
      Except.ok ([rDemo], writeCache stEmpty "momentum" "medium" 0 [rDemo]) ∧
    aiGetRecommendations (writeCache stEmpty "momentum" "medium" 0 [rDemo]) "momentum" 5
        "medium" false true 60 600 (Except.error "market data unavailable") =
      Except.ok ([rDemo], writeCache stEmpty "momentum" "medium" 0 [rDemo])) :=
  ⟨⟨by decide, by decide, rfl, by decide, by decide, by norm_num⟩,
    C6_cache_idempotent_for_nonempty stEmpty "momentum" "medium" 5 0 60 600 [rDemo]
      (Except.error "market data unavailable") (by decide) (by decide) rfl (by decide)
      (by decide) (by norm_num)⟩

/-- Counterexample for C6 as stated: an EMPTY first result is written to the
cache but is falsy on the cache read, so the second call within the TTL
regenerates and can return a different (here nonempty) list instead of the
cached empty one. -/
theorem C6_counterexample :
    aiGetRecommendations stEmpty "momentum" 5 "medium" false true 0 600 (Except.ok []) =
      Except.ok ([], writeCache stEmpty "momentum" "medium" 0 []) ∧
    aiGetRecommendations (writeCache stEmpty "momentum" "medium" 0 []) "momentum" 5
        "medium" false true 60 600 (Except.ok [rDemo]) =
      Except.ok ([rDemo],
        writeCache (writeCache stEmpty "momentum" "medium" 0 []) "momentum" "medium" 60
          [rDemo]) ∧
    ([rDemo] : List Rec) ≠ [] := by
  refine ⟨?_, ?_, by decide⟩ <;> with_unfolding_all rfl

/-- Claim C4 (corrected).  With a valid strategy and risk level and market
data available, the blend returns a result for EVERY outcome — error
included — of the strategy-manager, enhanced-OpenAI and hybrid-model calls:
scorer and model failures are contained.  An unknown strategy raises the
invalid-argument error.  But a market-data failure propagates out of
`get_recommendations` as a non-invalid-argument error (see the
counterexample), so invalid-argument is NOT the only error the blend can
raise. -/
theorem C4_scorer_failures_contained
    (st : EnhCacheState) (strategy : String) (maxRecs : ℤ) (risk : String)
    (forceRefresh cacheEnabled : Bool) (now ttl : ℚ) (ms : List Market)
    (managerRes enhancedRes hybridRes : Except String (List Rec))
    (openaiEnabled useEnhanced : Bool) (strategy2 : String)
    (hs : pyLower strategy ∈
      ["momentum", "mean-reversion", "hybrid", "arbitrage", "volatility", "sentiment",
       "combined"])
    (hr : pyLower risk ∈ ["low", "medium", "high"])
    (hbad : pyLower strategy2 ∉
      ["momentum", "mean-reversion", "hybrid", "arbitrage", "volatility", "sentiment",
       "combined"]) :
    exceptIsOk (enhancedGetRecommendations st strategy maxRecs risk forceRefresh
      cacheEnabled now ttl (Except.ok ms) managerRes enhancedRes hybridRes openaiEnabled
      useEnhanced) = true ∧
    enhancedGetRecommendations st strategy2 maxRecs risk forceRefresh cacheEnabled now ttl
        (Except.ok ms) managerRes enhancedRes hybridRes openaiEnabled useEnhanced =
      Except.error (BlendError.invalidArgument ("Invalid strategy: " ++ strategy2)) := by
  constructor
  · rw [enhancedGetRecommendations.eq_def, if_neg (not_not_intro hs),
      if_neg (not_not_intro hr)]
    rcases hcache : (if cacheEnabled = true ∧ ¬forceRefresh = true then
        enhGetCached st strategy risk now ttl else none) with _ | e
    · exact exceptIsOk_ite rfl rfl
    · rfl
  · rw [enhancedGetRecommendations.eq_def, if_pos hbad]

/-- Witness for C4 at a concrete instance: every external scorer and model
call fails, yet the blend answers; an unknown strategy gets the
invalid-argument error. -/
theorem C4_scorer_failures_contained_witness :
    (pyLower "combined" ∈
      ["momentum", "mean-reversion", "hybrid", "arbitrage", "volatility", "sentiment",
       "combined"] ∧
      pyLower "medium" ∈ ["low", "medium", "high"] ∧
      pyLower "martingale" ∉
        ["momentum", "mean-reversion", "hybrid", "arbitrage", "volatility", "sentiment",
         "combined"]) ∧
    exceptIsOk (enhancedGetRecommendations { entries := [] } "combined" 5 "medium" false
      true 0 600 (Except.ok [mExtreme]) (Except.error "arbitrage strategy failed")
      (Except.error "enhanced model failed") (Except.error "hybrid model failed")
      true true) = true ∧
    enhancedGetRecommendations { entries := [] } "martingale" 5 "medium" false true 0 600
        (Except.ok [mExtreme]) (Except.error "arbitrage strategy failed")
        (Except.error "enhanced model failed") (Except.error "hybrid model failed")
        true true =
      Except.error (BlendError.invalidArgument ("Invalid strategy: " ++ "martingale")) :=
  have h := C4_scorer_failures_contained { entries := [] } "combined" 5 "medium" false
    true 0 600 [mExtreme] (Except.error "arbitrage strategy failed")
    (Except.error "enhanced model failed") (Except.error "hybrid model failed")
    true true "martingale" (by decide) (by decide) (by decide)
  ⟨⟨by decide, by decide, by decide⟩, h.1, h.2⟩

/-- Counterexample for C4 as stated: a market-data fetch failure propagates
out of the blend as an error that is not the invalid-argument error, even
though strategy and risk level are valid and every scorer result is
available. -/
theorem C4_counterexample :
    enhancedGetRecommendations { entries := [] } "combined" 5 "medium" false true 0 600
        (Except.error "ConnectionError") (Except.ok []) (Except.ok []) (Except.ok [])
        false false =
      Except.error (BlendError.upstream "ConnectionError") := by
  with_unfolding_all rfl
